import Mathlib

/-!
Shallow embedding of the f1-data-dashboard source (src/app.py) and proofs
about its telemetry-to-geometry pipeline, color mapping, legend derivation,
lap aggregation and image data-URI output.

Floats in the source are modelled as rationals (ℚ); the scalar channels
involved (gear, speed, lap times) take exact decimal values, and none of the
verified properties depend on rounding.
-/

namespace F1Dashboard

/-- One telemetry sample: an (x, y) track position plus the scalar channel
value (gear in `create_figure`, speed in `create_speed_graph`) carried by the
same row of the telemetry frame. -/
structure TelemetrySample where
  x : ℚ
  y : ℚ
  channel : ℚ
deriving DecidableEq, Repr

/-- Position of a sample, as packed by `np.array([x, y]).T.reshape(-1, 1, 2)`
in `create_figure` (line 32) and `create_speed_graph` (line 124). -/
def sampleToPoint (s : TelemetrySample) : ℚ × ℚ :=
  (s.x, s.y)

/-- Segment construction of app.py lines 32–33 / 124–125:
`segments = np.concatenate([points[:-1], points[1:]], axis=1)` pairs each
point with its successor, i.e. it zips `points` without its last element
against `points` without its first element. -/
def buildSegments (points : List (ℚ × ℚ)) : List ((ℚ × ℚ) × (ℚ × ℚ)) :=
  points.dropLast.zip points.tail

/-- The segments built by `create_figure` / `create_speed_graph` from a list
of telemetry samples. -/
def telemetrySegments (samples : List TelemetrySample) : List ((ℚ × ℚ) × (ℚ × ℚ)) :=
  buildSegments (samples.map sampleToPoint)

/-- Scalar attachment of app.py lines 34/38 (`lc_comp.set_array(gear)`) and
121/145 (`lc.set_array(color)`): the full channel column is handed to the
`LineCollection`, which colors segment i by entry i of the array; with N
samples and N−1 segments the trailing entry is unused, so each segment is
paired with the channel value of its leading sample.  Modelled by zipping the
segments against the channel column (zip truncates to the shorter list). -/
def coloredSegments (samples : List TelemetrySample) :
    List (((ℚ × ℚ) × (ℚ × ℚ)) × ℚ) :=
  (telemetrySegments samples).zip (samples.map (·.channel))

theorem length_telemetrySegments (samples : List TelemetrySample) :
    (telemetrySegments samples).length = samples.length - 1 := by
  simp [telemetrySegments, buildSegments]

theorem length_coloredSegments (samples : List TelemetrySample) :
    (coloredSegments samples).length = samples.length - 1 := by
  simp [coloredSegments, length_telemetrySegments]

/-- C1: with N ≥ 2 samples there are exactly N−1 segments, in input order:
segment i runs from sample i to sample i+1 and carries the channel value of
sample i, the leading endpoint. -/
theorem segment_construction_leading_value
    (samples : List TelemetrySample) (hN : 2 ≤ samples.length)
    (i : ℕ) (hi : i < samples.length - 1) :
    (coloredSegments samples).length = samples.length - 1 ∧
    (coloredSegments samples)[i]? =
      some ((sampleToPoint (samples.get ⟨i, by omega⟩),
             sampleToPoint (samples.get ⟨i + 1, by omega⟩)),
            (samples.get ⟨i, by omega⟩).channel) := by
  refine ⟨length_coloredSegments samples, ?_⟩
  have hlen : (coloredSegments samples).length = samples.length - 1 :=
    length_coloredSegments samples
  have hi' : i < (coloredSegments samples).length := by omega
  rw [List.getElem?_eq_getElem hi']
  congr 1
  have hseg : i < (telemetrySegments samples).length := by
    rw [length_telemetrySegments]; omega
  have hchan : i < (samples.map (·.channel)).length := by
    simp; omega
  rw [show (coloredSegments samples)[i] =
        ((telemetrySegments samples)[i], (samples.map (·.channel))[i]) from
      List.getElem_zip]
  have hdl : i < (samples.map sampleToPoint).dropLast.length := by
    simp [List.length_dropLast]; omega
  have htl : i < (samples.map sampleToPoint).tail.length := by
    simp [List.length_tail]; omega
  have hm : i < (samples.map sampleToPoint).length := by simp; omega
  have hm1 : i + 1 < (samples.map sampleToPoint).length := by simp; omega
  have h1 : (telemetrySegments samples)[i] =
      ((samples.map sampleToPoint)[i], (samples.map sampleToPoint)[i + 1]) := by
    simp only [telemetrySegments, buildSegments]
    rw [show (((samples.map sampleToPoint).dropLast.zip
          (samples.map sampleToPoint).tail))[i] =
        (((samples.map sampleToPoint).dropLast)[i],
         ((samples.map sampleToPoint).tail)[i]) from List.getElem_zip]
    rw [List.getElem_dropLast, List.getElem_tail]
  rw [h1]
  simp [List.getElem_map, List.get_eq_getElem]

/-- Concrete instantiation of C1 on a three-sample run. -/
theorem segment_construction_leading_value_witness :
    (coloredSegments [⟨0, 0, 3⟩, ⟨1, 1, 4⟩, ⟨2, 0, 5⟩]).length =
      ([⟨0, 0, 3⟩, ⟨1, 1, 4⟩, (⟨2, 0, 5⟩ : TelemetrySample)] : List TelemetrySample).length - 1 ∧
    (coloredSegments [⟨0, 0, 3⟩, ⟨1, 1, 4⟩, ⟨2, 0, 5⟩])[0]? =
      some ((sampleToPoint (([⟨0, 0, 3⟩, ⟨1, 1, 4⟩, ⟨2, 0, 5⟩] :
               List TelemetrySample).get ⟨0, by decide⟩),
             sampleToPoint (([⟨0, 0, 3⟩, ⟨1, 1, 4⟩, ⟨2, 0, 5⟩] :
               List TelemetrySample).get ⟨0 + 1, by decide⟩)),
            (([⟨0, 0, 3⟩, ⟨1, 1, 4⟩, ⟨2, 0, 5⟩] :
               List TelemetrySample).get ⟨0, by decide⟩).channel) :=
  segment_construction_leading_value
    [⟨0, 0, 3⟩, ⟨1, 1, 4⟩, ⟨2, 0, 5⟩] (by decide) 0 (by decide)

/-- C2 counterexample: on a single-sample input the construction of lines
29–34 returns the empty segment sequence; there is no length check and no
failure path (no InsufficientDataError exists anywhere in app.py), so the
claimed failure does not occur. -/
theorem short_input_counterexample :
    coloredSegments [⟨0, 0, 3⟩] = [] ∧ coloredSegments [] = [] := by
  constructor <;> rfl

/-- C2 amended: on fewer than two samples, segment construction returns the
empty segment sequence rather than failing. -/
theorem short_input_returns_empty
    (samples : List TelemetrySample) (h : samples.length < 2) :
    coloredSegments samples = [] := by
  have := length_coloredSegments samples
  have : (coloredSegments samples).length = 0 := by omega
  exact List.eq_nil_of_length_eq_zero this

/-- Concrete instantiation of the amended C2 on a one-sample input. -/
theorem short_input_returns_empty_witness :
    coloredSegments [⟨5, 5, 2⟩] = [] :=
  short_input_returns_empty [⟨5, 5, 2⟩] (by decide)

/-! ### Color normalization and colormap lookup

`create_figure` colors segments through
`LineCollection(segments, norm=plt.Normalize(1, cmap.N + 1), cmap=colormaps[..Paired..])`
(line 37) where Paired has 12 entries, and `create_speed_graph` through
`plt.Normalize(color.min(), color.max())` with the 256-entry plasma colormap
(lines 140–141).  The matplotlib semantics embedded here:
`matplotlib.colors.Normalize.__call__` returns `(v - vmin)/(vmax - vmin)`
and fills the result with 0 when `vmin == vmax`; `matplotlib.colors.Colormap.__call__`
on a float scales the normalized value by the number of entries N, rewrites
exactly-N to N−1, truncates to an integer index, and sends below-range /
above-range values to the under/over colors, which default to the first and
last palette entries. -/

/-- Embedding of `matplotlib.colors.Normalize` with `clip=False`: linear
rescale of `v` from `[vmin, vmax]` to `[0, 1]`; when `vmin == vmax` the
result array is filled with 0. -/
def Normalize (vmin vmax v : ℚ) : ℚ :=
  if vmin = vmax then 0 else (v - vmin) / (vmax - vmin)

/-- Embedding of `matplotlib.colors.Colormap.__call__` reduced to the palette
index it selects, for a colormap with `n` entries and a normalized float
input `x`: scale by `n`, map exactly-`n` to `n − 1`, send out-of-range values
to the default under/over entries (first and last), truncate otherwise. -/
def colormapIndex (n : ℕ) (x : ℚ) : ℕ :=
  let xa : ℚ := x * n
  let xb : ℚ := if xa = n then (n : ℚ) - 1 else xa
  if xb < 0 then 0
  else if (n : ℚ) ≤ xb then n - 1
  else (⌊xb⌋).toNat

/-- Palette index used by `create_figure` for a gear value: the 12-entry
Paired colormap composed with `plt.Normalize(1, 13)` (line 37). -/
def gearColorIndex (g : ℚ) : ℕ :=
  colormapIndex 12 (Normalize 1 13 g)

/-- Gear bucket of a scalar value: palette entry `i` of the Paired colormap
is the swatch for gear level `i + 1` under `Normalize(1, 13)`, so the bucket
level is the palette index plus one. -/
def gearBucket (g : ℚ) : ℕ :=
  gearColorIndex g + 1

theorem gearColorIndex_of_bucket (L : ℕ) (g : ℚ)
    (h1 : 1 ≤ L) (h8 : L ≤ 8) (hg1 : (L : ℚ) ≤ g) (hg2 : g < (L : ℚ) + 1) :
    gearColorIndex g = L - 1 := by
  have hL9 : (g : ℚ) - 1 < 8 := by
    have : (L : ℚ) ≤ 8 := by exact_mod_cast h8
    linarith
  have hL0 : (0 : ℚ) ≤ g - 1 := by
    have : (1 : ℚ) ≤ L := by exact_mod_cast h1
    linarith
  have hxa : Normalize 1 13 g * ((12 : ℕ) : ℚ) = g - 1 := by
    unfold Normalize
    rw [if_neg (by norm_num : (1 : ℚ) ≠ 13)]
    push_cast
    norm_num
  unfold gearColorIndex
  simp only [colormapIndex]
  rw [hxa]
  push_cast
  rw [if_neg (show ¬ (g - 1 = (12 : ℚ)) by intro h; linarith)]
  rw [if_neg (show ¬ (g - 1 < (0 : ℚ)) by linarith)]
  rw [if_neg (show ¬ ((12 : ℚ) ≤ g - 1) by intro h; linarith)]
  have hfloor : ⌊g - 1⌋ = (L : ℤ) - 1 := by
    rw [Int.floor_eq_iff]
    constructor
    · push_cast; linarith
    · push_cast; linarith
  rw [hfloor]
  omega

/-- C4: in the discrete gear coloring, every value in `[L, L+1)` falls in
bucket `L`, and in particular a value exactly on the boundary `L` is assigned
to the bucket whose lower edge it is — e.g. 3.0 maps to bucket 3, not 2. -/
theorem discrete_boundary_lower_bucket (L : ℕ) (g : ℚ)
    (h1 : 1 ≤ L) (h8 : L ≤ 8) (hg1 : (L : ℚ) ≤ g) (hg2 : g < (L : ℚ) + 1) :
    gearBucket g = L ∧ gearBucket (L : ℚ) = L := by
  constructor
  · unfold gearBucket
    rw [gearColorIndex_of_bucket L g h1 h8 hg1 hg2]
    omega
  · unfold gearBucket
    rw [gearColorIndex_of_bucket L (L : ℚ) h1 h8 le_rfl (by linarith)]
    omega

/-- Concrete instantiation of C4: the boundary value 3.0 maps to bucket 3. -/
theorem discrete_boundary_lower_bucket_witness :
    gearBucket (3 : ℚ) = 3 ∧ gearBucket ((3 : ℕ) : ℚ) = 3 :=
  discrete_boundary_lower_bucket 3 (3 : ℚ) (by decide) (by decide)
    (by norm_num) (by norm_num)

/-! ### Colorbar legend of create_figure (lines 50–52)

`plt.colorbar(..., boundaries=np.arange(1, 10))`, then
`cbar.set_ticks(np.arange(1.5, 9.5))` and
`cbar.set_ticklabels(np.arange(1, 9))`. -/

/-- Legend bucket boundaries `np.arange(1, 10)` of line 50. -/
def gearColorbarBoundaries : List ℚ :=
  (List.range 9).map (fun i : ℕ => 1 + (i : ℚ))

/-- Legend tick positions `np.arange(1.5, 9.5)` of line 51. -/
def gearTickPositions : List ℚ :=
  (List.range 8).map (fun i : ℕ => 3 / 2 + (i : ℚ))

/-- Legend tick labels `np.arange(1, 9)` of line 52. -/
def gearTickLabels : List ℕ :=
  (List.range 8).map (fun i => 1 + i)

/-- C5: each legend tick sits at its bucket level plus one half and is
labeled with the integer level: positions 1.5 … 8.5 for labels 1 … 8. -/
theorem legend_ticks_centered :
    gearTickPositions = gearTickLabels.map (fun L : ℕ => (L : ℚ) + 1 / 2) ∧
    gearTickPositions =
      [3 / 2, 5 / 2, 7 / 2, 9 / 2, 11 / 2, 13 / 2, 15 / 2, 17 / 2] ∧
    gearTickLabels = [1, 2, 3, 4, 5, 6, 7, 8] := by
  refine ⟨?_, ?_, ?_⟩
  · rw [gearTickPositions, gearTickLabels, List.map_map]
    exact List.map_congr_left (fun i _ => by simp only [Function.comp_apply]; push_cast; ring)
  · rw [gearTickPositions]
    simp [List.range_succ]
    norm_num
  · decide

/-! ### Continuous speed coloring of create_speed_graph (lines 139–145)

`norm = plt.Normalize(color.min(), color.max())` followed by
`LineCollection(segments, cmap=mpl.cm.plasma, norm=norm)` and
`lc.set_array(color)`; plasma is a 256-entry listed colormap. -/

/-- Minimum of a pandas series, as `color.min()` computes it on a nonempty
column (the empty case never occurs for loaded telemetry; 0 is a junk value). -/
def listMin : List ℚ → ℚ
  | [] => 0
  | h :: t => t.foldl min h

/-- Maximum of a pandas series, as `color.max()` computes it. -/
def listMax : List ℚ → ℚ
  | [] => 0
  | h :: t => t.foldl max h

/-- Per-sample plasma palette indices produced by the continuous mapping of
`create_speed_graph`: each speed value is normalized over the observed
min/max range and looked up in the 256-entry plasma colormap. -/
def speedColorIndices (speeds : List ℚ) : List ℕ :=
  speeds.map (fun v => colormapIndex 256 (Normalize (listMin speeds) (listMax speeds) v))

/-- The full scalar color mapping of `create_speed_graph`: the per-sample
palette indices together with the normalization descriptor (vmin, vmax) that
lines 140 and 152 both derive from the speed column. -/
def speedColorMapping (speeds : List ℚ) : List ℕ × (ℚ × ℚ) :=
  (speedColorIndices speeds, (listMin speeds, listMax speeds))

theorem foldl_min_all_eq (c : ℚ) :
    ∀ (t : List ℚ) (a : ℚ), (∀ v ∈ t, v = c) → a = c → t.foldl min a = c := by
  intro t
  induction t with
  | nil => intro a _ ha; simpa using ha
  | cons x t ih =>
      intro a hmem ha
      have hx : x = c := hmem x (by simp)
      have hrest : ∀ v ∈ t, v = c := fun v hv => hmem v (by simp [hv])
      simp only [List.foldl_cons]
      exact ih (min a x) hrest (by rw [ha, hx, min_self])

theorem foldl_max_all_eq (c : ℚ) :
    ∀ (t : List ℚ) (a : ℚ), (∀ v ∈ t, v = c) → a = c → t.foldl max a = c := by
  intro t
  induction t with
  | nil => intro a _ ha; simpa using ha
  | cons x t ih =>
      intro a hmem ha
      have hx : x = c := hmem x (by simp)
      have hrest : ∀ v ∈ t, v = c := fun v hv => hmem v (by simp [hv])
      simp only [List.foldl_cons]
      exact ih (max a x) hrest (by rw [ha, hx, max_self])

theorem listMin_all_eq (c : ℚ) (speeds : List ℚ)
    (hne : speeds ≠ []) (hall : ∀ v ∈ speeds, v = c) : listMin speeds = c := by
  match speeds, hne with
  | h :: t, _ =>
      exact foldl_min_all_eq c t h (fun v hv => hall v (by simp [hv]))
        (hall h (by simp))

theorem listMax_all_eq (c : ℚ) (speeds : List ℚ)
    (hne : speeds ≠ []) (hall : ∀ v ∈ speeds, v = c) : listMax speeds = c := by
  match speeds, hne with
  | h :: t, _ =>
      exact foldl_max_all_eq c t h (fun v hv => hall v (by simp [hv]))
        (hall h (by simp))

/-- C3 counterexample: with all speed values equal to 200, the mapping of
`create_speed_graph` sends every sample to palette entry 0 (the lowest plasma
color), while the palette midpoint — a normalized value of 1/2 — would be
entry 128; 0 and 128 are different entries of the 256-entry palette, so the
uniform color is not the midpoint color. -/
theorem constant_speed_not_midpoint :
    speedColorIndices [200, 200] = [0, 0] ∧
    colormapIndex 256 (1 / 2) = 128 ∧
    (0 : ℕ) ≠ 128 := by
  refine ⟨?_, ?_, by decide⟩
  · have hmin : listMin [200, 200] = (200 : ℚ) := by
      unfold listMin
      norm_num
    have hmax : listMax [200, 200] = (200 : ℚ) := by
      unfold listMax
      norm_num
    unfold speedColorIndices
    rw [hmin, hmax]
    have hnorm : Normalize 200 200 (200 : ℚ) = 0 := by
      unfold Normalize
      rw [if_pos rfl]
    have hidx : colormapIndex 256 (0 : ℚ) = 0 := by
      simp only [colormapIndex]
      norm_num
    simp only [List.map_cons, List.map_nil, hnorm, hidx]
  · simp only [colormapIndex]
    have h1 : (1 / 2 : ℚ) * ((256 : ℕ) : ℚ) = 128 := by norm_num
    rw [h1]
    rw [if_neg (by norm_num : ¬ ((128 : ℚ) = ((256 : ℕ) : ℚ)))]
    rw [if_neg (by norm_num : ¬ ((128 : ℚ) < 0))]
    rw [if_neg (by push_cast; norm_num : ¬ (((256 : ℕ) : ℚ) ≤ 128))]
    norm_num
    decide

/-- C3 amended: when every speed value equals one constant `c` (so
`color.min() == color.max()`), the `vmin == vmax` branch of Normalize fires
— no division by zero is attempted — every sample gets normalized value 0,
and all segments receive one uniform color, namely the lowest palette entry
(entry 0), not the palette midpoint. -/
theorem constant_speed_uniform_lowest (speeds : List ℚ) (c : ℚ)
    (hne : speeds ≠ []) (hall : ∀ v ∈ speeds, v = c) :
    speedColorIndices speeds = List.replicate speeds.length 0 := by
  unfold speedColorIndices
  rw [listMin_all_eq c speeds hne hall, listMax_all_eq c speeds hne hall]
  have hnorm : Normalize c c c = 0 := by
    unfold Normalize
    rw [if_pos rfl]
  have hidx : colormapIndex 256 (0 : ℚ) = 0 := by
    simp only [colormapIndex]
    norm_num
  have hpt : ∀ v ∈ speeds, colormapIndex 256 (Normalize c c v) = 0 := by
    intro v hv
    rw [hall v hv, hnorm, hidx]
  calc speeds.map (fun v => colormapIndex 256 (Normalize c c v))
      = speeds.map (fun _ => 0) := List.map_congr_left hpt
    _ = List.replicate speeds.length 0 := by
        simp [List.map_const]

/-- Concrete instantiation of the amended C3 at constant speed 200. -/
theorem constant_speed_uniform_lowest_witness :
    speedColorIndices [200, 200, 200] = List.replicate 3 0 :=
  constant_speed_uniform_lowest [200, 200, 200] 200 (by decide)
    (by intro v hv; simpa using hv)

/-- C8: the scalar color mapping of `create_speed_graph` is a pure function
of the speed column — two calls on identical inputs return identical palette
indices and identical normalization descriptors. -/
theorem speed_mapping_deterministic (s₁ s₂ : List ℚ) (h : s₁ = s₂) :
    speedColorMapping s₁ = speedColorMapping s₂ := by
  rw [h]

/-- Concrete instantiation of C8 on a two-sample speed column. -/
theorem speed_mapping_deterministic_witness :
    speedColorMapping [100, 250] = speedColorMapping [100, 250] :=
  speed_mapping_deterministic [100, 250] [100, 250] rfl

/-! ### Lap aggregation of create_scatterplot (lines 62–88)

`sns.scatterplot(data=driver_laps, x=..LapNumber.., y=..LapTime..,
hue=..Compound.., palette=COMPOUND_COLORS, ...)` groups the lap rows by the
Compound column.  Seaborn semantics embedded here: hue levels for a plain
string column are the distinct values in order of first appearance (pandas
`Series.unique`); with a dict palette, seaborn raises
`ValueError: The palette dictionary is missing keys ...` before drawing
anything when some level is absent from the dict; otherwise it draws one
series per level, each series holding that level's rows in input order with
the dict color. -/

/-- One row of the lap table consumed by `create_scatterplot`: LapNumber,
LapTime and Compound columns. -/
structure LapRecord where
  lap_number : ℕ
  lap_time : ℚ
  category : String
deriving DecidableEq, Repr

/-- One hue group of the scatter call: a tire category, its laps in input
order, and the display color taken from the palette dict. -/
structure CategorySeries where
  category : String
  laps : List LapRecord
  color : String
deriving DecidableEq, Repr

/-- The palette dict `COMPOUND_COLORS` of app.py lines 62–67. -/
def COMPOUND_COLORS : List (String × String) :=
  [("SOFT", "#D32F2F"), ("MEDIUM", "#FFB300"), ("HARD", "#757575"),
   ("INTERMEDIATE", "#388E3C"), ("WET", "#1976D2")]

/-- Distinct values of a string column in order of first appearance, as
pandas `Series.unique` computes the hue level order seaborn uses for a
non-categorical, non-numeric column. -/
def firstAppearance : List String → List String
  | [] => []
  | c :: rest => c :: (firstAppearance rest).filter (fun d => d ≠ c)

/-- Embedding of the seaborn scatter call of `create_scatterplot`
(lines 78–88): the hue grouping either fails because a Compound value is
missing from the palette dict — producing no output at all — or yields one
`CategorySeries` per hue level in first-appearance order. -/
def create_scatterplot_series (laps : List LapRecord)
    (policy : List (String × String)) : Except String (List CategorySeries) :=
  if (firstAppearance (laps.map (·.category))).all
      (fun c => (policy.lookup c).isSome) then
    Except.ok ((firstAppearance (laps.map (·.category))).map (fun c =>
      { category := c
        laps := laps.filter (fun lap => lap.category = c)
        color := (policy.lookup c).getD "" }))
  else Except.error "UnknownCategoryError"

theorem mem_firstAppearance : ∀ (l : List String) (a : String),
    a ∈ firstAppearance l ↔ a ∈ l := by
  intro l
  induction l with
  | nil => intro a; simp [firstAppearance]
  | cons c rest ih =>
      intro a
      by_cases h : a = c
      · simp [firstAppearance, h]
      · simp [firstAppearance, List.mem_filter, h, ih]

theorem nodup_firstAppearance : ∀ (l : List String), (firstAppearance l).Nodup := by
  intro l
  induction l with
  | nil => simp [firstAppearance]
  | cons c rest ih =>
      rw [firstAppearance, List.nodup_cons]
      refine ⟨?_, List.Nodup.filter _ ih⟩
      intro hmem
      have := (List.mem_filter.mp hmem).2
      simp at this

theorem pairwise_firstAppearance : ∀ (l : List String),
    (firstAppearance l).Pairwise (fun a b => l.indexOf a < l.indexOf b) := by
  intro l
  induction l with
  | nil => simp [firstAppearance]
  | cons c rest ih =>
      rw [firstAppearance, List.pairwise_cons]
      constructor
      · intro b hb
        have hbne : b ≠ c := by simpa using (List.mem_filter.mp hb).2
        rw [List.indexOf_cons_self, List.indexOf_cons_ne _ (Ne.symm hbne)]
        exact Nat.succ_pos _
      · have hp : ((firstAppearance rest).filter (fun d => d ≠ c)).Pairwise
            (fun a b => rest.indexOf a < rest.indexOf b) :=
          List.Pairwise.filter _ ih
        refine List.Pairwise.imp_of_mem ?_ hp
        intro a b ha hb hR
        have hane : a ≠ c := by simpa using (List.mem_filter.mp ha).2
        have hbne : b ≠ c := by simpa using (List.mem_filter.mp hb).2
        rw [List.indexOf_cons_ne _ (Ne.symm hane),
            List.indexOf_cons_ne _ (Ne.symm hbne)]
        omega

theorem scatterplot_ok_eq (laps : List LapRecord)
    (policy : List (String × String)) (out : List CategorySeries)
    (h : create_scatterplot_series laps policy = Except.ok out) :
    out = (firstAppearance (laps.map (·.category))).map (fun c =>
      { category := c
        laps := laps.filter (fun lap => lap.category = c)
        color := (policy.lookup c).getD "" }) := by
  unfold create_scatterplot_series at h
  split at h
  · exact (Except.ok.injEq _ _ ▸ congrArg id h).symm ▸ by
      cases h
      rfl
  · cases h

/-- C6: if any lap carries a category absent from the palette dict, the
scatter aggregation fails with the unknown-category error and produces no
series at all — no default color is ever substituted. -/
theorem unknown_category_fails (laps : List LapRecord)
    (policy : List (String × String))
    (h : ∃ lap ∈ laps, policy.lookup lap.category = none) :
    create_scatterplot_series laps policy = Except.error "UnknownCategoryError" := by
  obtain ⟨lap, hmem, hnone⟩ := h
  have hcond : ¬ ((firstAppearance (laps.map (·.category))).all
      (fun c => (policy.lookup c).isSome) = true) := by
    intro hall
    rw [List.all_eq_true] at hall
    have hlev : lap.category ∈ firstAppearance (laps.map (·.category)) :=
      (mem_firstAppearance _ _).mpr (List.mem_map_of_mem _ hmem)
    have hsome := hall lap.category hlev
    rw [hnone] at hsome
    simp at hsome
  unfold create_scatterplot_series
  rw [if_neg hcond]

/-- Concrete instantiation of C6: a SUPERSOFT lap is not covered by
COMPOUND_COLORS, so the aggregation fails with no partial output. -/
theorem unknown_category_fails_witness :
    create_scatterplot_series
      [⟨1, 90, "SOFT"⟩, ⟨2, 92, "SUPERSOFT"⟩] COMPOUND_COLORS =
    Except.error "UnknownCategoryError" :=
  unknown_category_fails [⟨1, 90, "SOFT"⟩, ⟨2, 92, "SUPERSOFT"⟩]
    COMPOUND_COLORS ⟨⟨2, 92, "SUPERSOFT"⟩, by simp, by rfl⟩

/-- C7: the returned series are ordered by first appearance of their
category in the input lap sequence — strictly increasing first-occurrence
index, not alphabetical order — and each series holds exactly the input laps
of its category, in input order. -/
theorem series_first_appearance_order (laps : List LapRecord)
    (policy : List (String × String)) (out : List CategorySeries)
    (h : create_scatterplot_series laps policy = Except.ok out) :
    (out.map (·.category)).Pairwise
      (fun a b => (laps.map (·.category)).indexOf a <
                  (laps.map (·.category)).indexOf b) ∧
    ∀ s ∈ out, s.laps = laps.filter (fun lap => lap.category = s.category) := by
  have hout := scatterplot_ok_eq laps policy out h
  subst hout
  constructor
  · rw [List.map_map]
    have : ((fun s : CategorySeries => s.category) ∘ (fun c =>
        ({ category := c
           laps := laps.filter (fun lap => lap.category = c)
           color := (policy.lookup c).getD "" } : CategorySeries))) = id := rfl
    rw [this, List.map_id]
    exact pairwise_firstAppearance (laps.map (·.category))
  · intro s hs
    obtain ⟨c, _, rfl⟩ := List.mem_map.mp hs
    rfl

/-- Concrete instantiation of C7 on the spec example: laps
(1, 90.1, SOFT), (2, 89.8, SOFT), (3, 91.0, MEDIUM) yield SOFT before
MEDIUM, the SOFT series holding laps 1 and 2 in order. -/
theorem series_first_appearance_order_witness :
    create_scatterplot_series
      [⟨1, 901/10, "SOFT"⟩, ⟨2, 449/5, "SOFT"⟩, ⟨3, 91, "MEDIUM"⟩]
      COMPOUND_COLORS =
    Except.ok
      [⟨"SOFT", [⟨1, 901/10, "SOFT"⟩, ⟨2, 449/5, "SOFT"⟩], "#D32F2F"⟩,
       ⟨"MEDIUM", [⟨3, 91, "MEDIUM"⟩], "#FFB300"⟩] ∧
    (([⟨"SOFT", [⟨1, 901/10, "SOFT"⟩, ⟨2, 449/5, "SOFT"⟩], "#D32F2F"⟩,
       ⟨"MEDIUM", [⟨3, 91, "MEDIUM"⟩], "#FFB300"⟩] :
        List CategorySeries).map (·.category)).Pairwise
      (fun a b =>
        (([⟨1, 901/10, "SOFT"⟩, ⟨2, 449/5, "SOFT"⟩, ⟨3, 91, "MEDIUM"⟩] :
           List LapRecord).map (·.category)).indexOf a <
        (([⟨1, 901/10, "SOFT"⟩, ⟨2, 449/5, "SOFT"⟩, ⟨3, 91, "MEDIUM"⟩] :
           List LapRecord).map (·.category)).indexOf b) := by
  constructor
  · rfl
  · exact (series_first_appearance_order
      [⟨1, 901/10, "SOFT"⟩, ⟨2, 449/5, "SOFT"⟩, ⟨3, 91, "MEDIUM"⟩]
      COMPOUND_COLORS
      [⟨"SOFT", [⟨1, 901/10, "SOFT"⟩, ⟨2, 449/5, "SOFT"⟩], "#D32F2F"⟩,
       ⟨"MEDIUM", [⟨3, 91, "MEDIUM"⟩], "#FFB300"⟩] (by rfl)).1

theorem flatMap_filter_perm : ∀ (levels : List String) (laps : List LapRecord),
    levels.Nodup → (∀ lap ∈ laps, lap.category ∈ levels) →
    (levels.flatMap (fun c =>
      laps.filter (fun lap => lap.category = c))).Perm laps := by
  intro levels
  induction levels with
  | nil =>
      intro laps _ hcov
      have hnil : laps = [] :=
        List.eq_nil_iff_forall_not_mem.mpr
          (fun lap hl => (List.not_mem_nil _ (hcov lap hl)))
      simp [hnil]
  | cons c lv ih =>
      intro laps hnd hcov
      rw [List.flatMap_cons]
      have hndl : lv.Nodup := (List.nodup_cons.mp hnd).2
      have hcnot : c ∉ lv := (List.nodup_cons.mp hnd).1
      have hcov' : ∀ lap ∈ laps.filter (fun lap => !decide (lap.category = c)),
          lap.category ∈ lv := by
        intro lap hl
        have hm := List.mem_filter.mp hl
        have h2 : lap.category ≠ c := by simpa using hm.2
        rcases List.mem_cons.mp (hcov lap hm.1) with h | h
        · exact absurd h h2
        · exact h
      have hperm := ih (laps.filter (fun lap => !decide (lap.category = c)))
        hndl hcov'
      have hcongr : lv.flatMap (fun d =>
            laps.filter (fun lap => lap.category = d)) =
          lv.flatMap (fun d =>
            (laps.filter (fun lap => !decide (lap.category = c))).filter
              (fun lap => lap.category = d)) := by
        refine List.flatMap_congr ?_
        intro d hd
        rw [List.filter_filter]
        refine (List.filter_congr ?_).symm
        intro lap _
        by_cases hld : lap.category = d
        · have hdc : d ≠ c := fun hdc => hcnot (hdc ▸ hd)
          simp [hld, hdc]
        · simp [hld]
      rw [hcongr]
      exact (List.Perm.append_left
          (laps.filter (fun lap => lap.category = c)) hperm).trans
        (List.filter_append_perm _ laps)

/-- C9: on any accepted input, the series partition the laps — flattening
all series gives a permutation of the input laps, hence the multiset of lap
numbers is preserved exactly (no lap dropped or duplicated) — and no series
is empty (categories without laps never appear). -/
theorem series_partition_round_trip (laps : List LapRecord)
    (policy : List (String × String)) (out : List CategorySeries)
    (h : create_scatterplot_series laps policy = Except.ok out) :
    (out.flatMap (·.laps)).Perm laps ∧
    ((out.flatMap (·.laps)).map (·.lap_number)).Perm
      (laps.map (·.lap_number)) ∧
    ∀ s ∈ out, s.laps ≠ [] := by
  have hout := scatterplot_ok_eq laps policy out h
  subst hout
  have hcov : ∀ lap ∈ laps,
      lap.category ∈ firstAppearance (laps.map (·.category)) := by
    intro lap hl
    exact (mem_firstAppearance _ _).mpr (List.mem_map_of_mem _ hl)
  have hperm : (((firstAppearance (laps.map (·.category))).map (fun c =>
      ({ category := c
         laps := laps.filter (fun lap => lap.category = c)
         color := (policy.lookup c).getD "" } : CategorySeries))).flatMap
        (·.laps)).Perm laps := by
    rw [List.flatMap_map]
    exact flatMap_filter_perm (firstAppearance (laps.map (·.category))) laps
      (nodup_firstAppearance _) hcov
  refine ⟨hperm, hperm.map _, ?_⟩
  intro s hs
  obtain ⟨c, hc, rfl⟩ := List.mem_map.mp hs
  obtain ⟨lap, hlap, hcat⟩ :=
    List.mem_map.mp ((mem_firstAppearance _ _).mp hc)
  have hmem : lap ∈ laps.filter (fun l => l.category = c) :=
    List.mem_filter.mpr ⟨hlap, by simp [hcat]⟩
  exact fun hempty => (List.ne_nil_of_mem hmem) hempty

/-- Concrete instantiation of C9: three laps over two compounds are
partitioned with no lap dropped or duplicated and no empty series. -/
theorem series_partition_round_trip_witness :
    ((([⟨"SOFT", [⟨1, 90, "SOFT"⟩, ⟨3, 92, "SOFT"⟩], "#D32F2F"⟩,
        ⟨"HARD", [⟨2, 91, "HARD"⟩], "#757575"⟩] :
         List CategorySeries).flatMap (·.laps)).Perm
      [⟨1, 90, "SOFT"⟩, ⟨2, 91, "HARD"⟩, ⟨3, 92, "SOFT"⟩]) ∧
    (((([⟨"SOFT", [⟨1, 90, "SOFT"⟩, ⟨3, 92, "SOFT"⟩], "#D32F2F"⟩,
         ⟨"HARD", [⟨2, 91, "HARD"⟩], "#757575"⟩] :
          List CategorySeries).flatMap (·.laps)).map (·.lap_number)).Perm
      (([⟨1, 90, "SOFT"⟩, ⟨2, 91, "HARD"⟩, ⟨3, 92, "SOFT"⟩] :
         List LapRecord).map (·.lap_number))) ∧
    ∀ s ∈ ([⟨"SOFT", [⟨1, 90, "SOFT"⟩, ⟨3, 92, "SOFT"⟩], "#D32F2F"⟩,
            ⟨"HARD", [⟨2, 91, "HARD"⟩], "#757575"⟩] :
             List CategorySeries), s.laps ≠ [] :=
  series_partition_round_trip
    [⟨1, 90, "SOFT"⟩, ⟨2, 91, "HARD"⟩, ⟨3, 92, "SOFT"⟩] COMPOUND_COLORS
    [⟨"SOFT", [⟨1, 90, "SOFT"⟩, ⟨3, 92, "SOFT"⟩], "#D32F2F"⟩,
     ⟨"HARD", [⟨2, 91, "HARD"⟩], "#757575"⟩] (by rfl)

/-! ### Data-URI output (lines 54–60, 99–105, 157–163)

All three figure functions end identically:
`image_base64 = base64.b64encode(buf.getvalue()).decode(..utf-8..)` followed by
`return f..data:image/png;base64,{image_base64}..`.  Python `b64encode` is
standard RFC 4648 base64 with `=` padding and no line breaks. -/

/-- The 64-character standard base64 alphabet used by `base64.b64encode`. -/
def b64Chars : List Char :=
  "ABCDEFGHIJKLMNOPQRSTUVWXYZabcdefghijklmnopqrstuvwxyz0123456789+/".toList

/-- Alphabet character for one six-bit group. -/
def b64Char (n : ℕ) : Char :=
  b64Chars.getD n 'A'

/-- Embedding of Python `base64.b64encode` on a byte string: each 3-byte
group becomes 4 alphabet characters; a trailing 2-byte group becomes 3
characters plus one `=` pad; a trailing 1-byte group becomes 2 characters
plus two pads. -/
def b64encode : List ℕ → List Char
  | [] => []
  | [a] => [b64Char (a / 4), b64Char (a % 4 * 16), '=', '=']
  | [a, b] => [b64Char (a / 4), b64Char (a % 4 * 16 + b / 16),
               b64Char (b % 16 * 4), '=']
  | a :: b :: c :: rest =>
      b64Char (a / 4) :: b64Char (a % 4 * 16 + b / 16) ::
      b64Char (b % 16 * 4 + c / 64) :: b64Char (c % 64) :: b64encode rest

/-- The fixed leading text of the returned data URI (lines 60, 105, 163). -/
def dataUriHead : String :=
  "data:image/png;base64,"

/-- Return value of `create_figure` as a function of the PNG bytes the Agg
backend wrote into the buffer (lines 54–60). -/
def create_figure_output (png : List ℕ) : String :=
  dataUriHead ++ String.mk (b64encode png)

/-- Return value of `create_scatterplot` (lines 99–105). -/
def create_scatterplot_output (png : List ℕ) : String :=
  dataUriHead ++ String.mk (b64encode png)

/-- Return value of `create_speed_graph` (lines 157–163). -/
def create_speed_graph_output (png : List ℕ) : String :=
  dataUriHead ++ String.mk (b64encode png)

/-- Well-formed base64 text: length a multiple of four and every character
drawn from the base64 alphabet or the `=` pad. -/
def validB64 (cs : List Char) : Prop :=
  cs.length % 4 = 0 ∧ ∀ ch ∈ cs, ch ∈ b64Chars ∨ ch = '='

theorem b64Char_mem (n : ℕ) : b64Char n ∈ b64Chars := by
  unfold b64Char
  by_cases h : n < b64Chars.length
  · rw [List.getD_eq_getElem b64Chars 'A' h]
    exact List.getElem_mem h
  · rw [List.getD_eq_default b64Chars 'A' (Nat.le_of_not_lt h)]
    decide

theorem validB64_b64encode : ∀ (png : List ℕ), validB64 (b64encode png)
  | [] => ⟨by simp [b64encode], by simp [b64encode]⟩
  | [a] => by
      refine ⟨by simp [b64encode], ?_⟩
      intro ch hch
      simp only [b64encode, List.mem_cons, List.not_mem_nil, or_false] at hch
      rcases hch with h | h | h | h <;> subst h
      · exact Or.inl (b64Char_mem _)
      · exact Or.inl (b64Char_mem _)
      · exact Or.inr rfl
      · exact Or.inr rfl
  | [a, b] => by
      refine ⟨by simp [b64encode], ?_⟩
      intro ch hch
      simp only [b64encode, List.mem_cons, List.not_mem_nil, or_false] at hch
      rcases hch with h | h | h | h <;> subst h
      · exact Or.inl (b64Char_mem _)
      · exact Or.inl (b64Char_mem _)
      · exact Or.inl (b64Char_mem _)
      · exact Or.inr rfl
  | a :: b :: c :: rest => by
      have ih := validB64_b64encode rest
      constructor
      · have h4 : (b64encode (a :: b :: c :: rest)).length =
            4 + (b64encode rest).length := by
          simp only [b64encode, List.length_cons]
          omega
        rw [h4, Nat.add_mod, ih.1]
      · intro ch hch
        simp only [b64encode, List.mem_cons] at hch
        rcases hch with h | h | h | h | h
        · exact Or.inl (h ▸ b64Char_mem _)
        · exact Or.inl (h ▸ b64Char_mem _)
        · exact Or.inl (h ▸ b64Char_mem _)
        · exact Or.inl (h ▸ b64Char_mem _)
        · exact ih.2 ch h

/-- C10: each of the three figure-producing functions returns exactly the
data-URI head `data:image/png;base64,` followed by the base64 encoding of
the PNG bytes, and that encoding is well-formed base64 text, for every byte
string. -/
theorem figure_output_data_uri (png : List ℕ) :
    (create_figure_output png).data = dataUriHead.data ++ b64encode png ∧
    (create_scatterplot_output png).data = dataUriHead.data ++ b64encode png ∧
    (create_speed_graph_output png).data = dataUriHead.data ++ b64encode png ∧
    validB64 (b64encode png) :=
  ⟨rfl, rfl, rfl, validB64_b64encode png⟩

end F1Dashboard
